import Mathlib

/-!
Verification of the subtitler core (subtitler/core/subtitle_extractor.py).

Strings are modelled as `List Char`.  Python library functions used by the
source (str.strip, str.isalnum, str.replace, str.lower, urllib.parse.urlparse,
urllib.parse.parse_qs) are embedded below; character-class functions
(whitespace, alphanumeric, lowercasing) are modelled on the ASCII range, which
is the range the recognized hosts, paths and video identifiers live in.
-/

namespace Subtitler

/-- Model of the characters stripped by Python str.strip() (ASCII whitespace:
TAB, LF, VT, FF, CR, SPACE). -/
def pyIsSpaceChar (c : Char) : Bool :=
  (9 ≤ c.toNat && c.toNat ≤ 13) || c.toNat == 32

/-- Model of Python str.lstrip() with no argument. -/
def pyLstrip (s : List Char) : List Char :=
  s.dropWhile pyIsSpaceChar

/-- Model of Python str.rstrip() with no argument. -/
def pyRstrip (s : List Char) : List Char :=
  (s.reverse.dropWhile pyIsSpaceChar).reverse

/-- Model of Python str.strip() with no argument. -/
def pyStrip (s : List Char) : List Char :=
  pyRstrip (pyLstrip s)

/-- Model of the per-character test of Python str.isalnum() on the ASCII range:
digits 0-9, letters A-Z and a-z. -/
def isalnumChar (c : Char) : Bool :=
  (48 ≤ c.toNat && c.toNat ≤ 57) || (65 ≤ c.toNat && c.toNat ≤ 90) ||
    (97 ≤ c.toNat && c.toNat ≤ 122)

/-- Model of Python str.isalnum(): every character alphanumeric AND the string
non-empty (Python returns False on the empty string). -/
def isalnumS (s : List Char) : Bool :=
  !s.isEmpty && s.all isalnumChar

/-- Model of the source expression s.replace("_", "").replace("-", ""): drop every
underscore and hyphen. -/
def stripUD (s : List Char) : List Char :=
  s.filter (fun c => !(c == '_' || c == '-'))

/-- Model of Python str.lower() on the ASCII range (Char.toLower lowercases
exactly the ASCII uppercase letters). -/
def lowerL (s : List Char) : List Char :=
  s.map Char.toLower

/-! Model of urllib.parse.urlsplit / urlparse, following CPython:
the URL is first stripped of leading C0-control-or-space characters, then all
TAB, CR and LF characters are removed; then the scheme, the netloc (after a
leading "//", up to the first of "/?#", with a check that "[" and "]" appear
together), the fragment (after the first "#") and the query (after the first
"?") are split off; urlparse additionally splits the params off the path
(first ";" at or after the last "/").  CPython raises ValueError on a bracket
mismatch in the netloc; that is modelled as a `none` result (the callers in
the source catch every exception).  The NFKC netloc check, which can only fire
on non-ASCII netlocs, is not modelled. -/

/-- Leading C0-control-or-space strip performed by urlsplit. -/
def lstripC0 (s : List Char) : List Char :=
  s.dropWhile (fun c => c.toNat ≤ 32)

/-- Removal of TAB, CR, LF everywhere in the URL, performed by urlsplit. -/
def removeUnsafe (s : List Char) : List Char :=
  s.filter (fun c => !(c == '\t' || c == '\r' || c == '\n'))

/-- Characters allowed after the first character of a URL scheme. -/
def isSchemeTailChar (c : Char) : Bool :=
  c.isAlpha || c.isDigit || c == '+' || c == '-' || c == '.'

/-- Split a list at the first occurrence of character c: returns the part
before and the part after (the occurrence removed), or none when c is absent.
This is Python s.split(c, 1) restricted to the found/not-found distinction. -/
def splitOnceChar (c : Char) : List Char → Option (List Char × List Char)
  | [] => none
  | a :: rest =>
    if a = c then some ([], rest)
    else (splitOnceChar c rest).map (fun p => (a :: p.1, p.2))

/-- Scheme recognition of urlsplit: take the part before the first colon when
it is non-empty, starts with an ASCII letter and continues with scheme
characters; the scheme is lowercased.  Otherwise the URL is left whole. -/
def splitScheme (s : List Char) : List Char × List Char :=
  match splitOnceChar ':' s with
  | none => ([], s)
  | some ([], _) => ([], s)
  | some (c :: pre, post) =>
    if c.isAlpha && pre.all isSchemeTailChar then (lowerL (c :: pre), post)
    else ([], s)

/-- Take characters until the first one contained in stops; returns the part
before and the rest (starting with the stop character, when found). -/
def takeUntilAny (stops : List Char) : List Char → List Char × List Char
  | [] => ([], [])
  | a :: rest =>
    if a ∈ stops then ([], a :: rest)
    else
      let p := takeUntilAny stops rest
      (a :: p.1, p.2)

/-- Bracket-mismatch check of urlsplit on the netloc ("Invalid IPv6 URL"). -/
def bracketBad (nl : List Char) : Bool :=
  (nl.contains '[') != (nl.contains ']')

/-- Split at the first '#' (fragment handling of urlsplit). -/
def splitHash (s : List Char) : List Char × List Char :=
  match splitOnceChar '#' s with
  | none => (s, [])
  | some (a, b) => (a, b)

/-- Split at the first '?' (query handling of urlsplit). -/
def splitQm (s : List Char) : List Char × List Char :=
  match splitOnceChar '?' s with
  | none => (s, [])
  | some (a, b) => (a, b)

/-- Result of urlsplit. -/
structure SplitUrl where
  scheme : List Char
  netloc : List Char
  path : List Char
  query : List Char
  fragment : List Char
deriving DecidableEq, Repr

/-- Model of urllib.parse.urlsplit with allow_fragments=True; `none` models a
raised ValueError. -/
def urlsplit (url : List Char) : Option SplitUrl :=
  let u0 := removeUnsafe (lstripC0 url)
  let sp := splitScheme u0
  if sp.2.take 2 = ['/', '/'] then
    let nlp := takeUntilAny ['/', '?', '#'] (sp.2.drop 2)
    if bracketBad nlp.1 then none
    else
      let hf := splitHash nlp.2
      let qf := splitQm hf.1
      some ⟨sp.1, nlp.1, qf.1, qf.2, hf.2⟩
  else
    let hf := splitHash sp.2
    let qf := splitQm hf.1
    some ⟨sp.1, [], qf.1, qf.2, hf.2⟩

/-- Break a list around its last '/': returns the part up to and including
that slash and the part after it; when there is no slash, ([], s). -/
def breakAtLastSlash (s : List Char) : List Char × List Char :=
  match splitOnceChar '/' s.reverse with
  | none => ([], s)
  | some (a, b) => (b.reverse ++ ['/'], a.reverse)

/-- Model of urllib.parse._splitparams composed with its call-site guard in
urlparse: when the path contains ';', split the params off at the first ';'
located at or after the last '/' (or the first ';' when there is no '/'). -/
def splitparams (u : List Char) : List Char × List Char :=
  if u.contains ';' then
    if u.contains '/' then
      let p := breakAtLastSlash u
      match splitOnceChar ';' p.2 with
      | none => (u, [])
      | some (a, b) => (p.1 ++ a, b)
    else
      match splitOnceChar ';' u with
      | none => (u, [])
      | some (a, b) => (a, b)
  else (u, [])

/-- Result of urlparse. -/
structure ParsedUrl where
  scheme : List Char
  netloc : List Char
  path : List Char
  params : List Char
  query : List Char
  fragment : List Char
deriving DecidableEq, Repr

/-- Model of urllib.parse.urlparse; `none` models a raised ValueError. -/
def urlparse (url : List Char) : Option ParsedUrl :=
  match urlsplit url with
  | none => none
  | some r =>
    let pp := splitparams r.path
    some ⟨r.scheme, r.netloc, pp.1, pp.2, r.query, r.fragment⟩

/-! Model of urllib.parse.parse_qs / parse_qsl with its default arguments
(keep_blank_values=False, strict_parsing=False, encoding utf-8,
errors="replace", separator "&"), including unquote_plus: '+' becomes a
space, then maximal ASCII runs are percent-decoded to bytes and decoded as
UTF-8 with U+FFFD replacement of maximal invalid subparts; non-ASCII
characters pass through unchanged. -/

/-- Model of Python str.split(sep) for a one-character separator: keeps empty
fields, and the split of the empty string is one empty field. -/
def pySplitOn (c : Char) : List Char → List (List Char)
  | [] => [[]]
  | a :: rest =>
    if a = c then [] :: pySplitOn c rest
    else
      match pySplitOn c rest with
      | [] => [[a]]
      | x :: xs => (a :: x) :: xs

/-- Value of a hexadecimal digit, in either case. -/
def hexDigitVal (c : Char) : Option Nat :=
  if 48 ≤ c.toNat ∧ c.toNat ≤ 57 then some (c.toNat - 48)
  else if 97 ≤ c.toNat ∧ c.toNat ≤ 102 then some (c.toNat - 87)
  else if 65 ≤ c.toNat ∧ c.toNat ≤ 70 then some (c.toNat - 55)
  else none

/-- Decoding of the chunks after each '%' (unquote_to_bytes): two leading hex
digits become one byte, otherwise the '%' (byte 37) is kept literally. -/
def pctChunks (items : List (List Char)) : List Nat :=
  items.flatMap fun item =>
    match item with
    | h1 :: h2 :: rest =>
      match hexDigitVal h1, hexDigitVal h2 with
      | some a, some b => (a * 16 + b) :: rest.map Char.toNat
      | _, _ => 37 :: item.map Char.toNat
    | _ => 37 :: item.map Char.toNat

/-- Model of urllib.parse.unquote_to_bytes on an ASCII run. -/
def pctDecodeBytes (s : List Char) : List Nat :=
  match pySplitOn '%' s with
  | [] => []
  | first :: items => first.map Char.toNat ++ pctChunks items

/-- UTF-8 continuation byte test. -/
def utf8Cont (b : Nat) : Bool :=
  128 ≤ b && b ≤ 191

/-- Admissible range of the second byte of a multi-byte UTF-8 sequence, which
depends on the lead byte (excludes overlong forms, surrogates and values
above U+10FFFF). -/
def utf8B2Range (b : Nat) : Nat × Nat :=
  if b = 0xE0 then (0xA0, 0xBF)
  else if b = 0xED then (0x80, 0x9F)
  else if b = 0xF0 then (0x90, 0xBF)
  else if b = 0xF4 then (0x80, 0x8F)
  else (0x80, 0xBF)

/-- The U+FFFD replacement character. -/
def replChar : Char :=
  Char.ofNat 0xFFFD

/-- UTF-8 decoding with errors="replace": each maximal invalid subpart is
replaced by one U+FFFD, as the CPython decoder does. -/
def utf8DecodeReplace : List Nat → List Char
  | [] => []
  | b :: rest =>
    if b ≤ 0x7F then Char.ofNat b :: utf8DecodeReplace rest
    else if 0xC2 ≤ b ∧ b ≤ 0xDF then
      match rest with
      | [] => [replChar]
      | b2 :: rest2 =>
        if utf8Cont b2 then
          Char.ofNat ((b - 0xC0) * 64 + (b2 - 0x80)) :: utf8DecodeReplace rest2
        else replChar :: utf8DecodeReplace (b2 :: rest2)
    else if 0xE0 ≤ b ∧ b ≤ 0xEF then
      match rest with
      | [] => [replChar]
      | b2 :: rest2 =>
        if (utf8B2Range b).1 ≤ b2 ∧ b2 ≤ (utf8B2Range b).2 then
          match rest2 with
          | [] => [replChar]
          | b3 :: rest3 =>
            if utf8Cont b3 then
              Char.ofNat ((b - 0xE0) * 4096 + (b2 - 0x80) * 64 + (b3 - 0x80)) ::
                utf8DecodeReplace rest3
            else replChar :: utf8DecodeReplace (b3 :: rest3)
        else replChar :: utf8DecodeReplace (b2 :: rest2)
    else if 0xF0 ≤ b ∧ b ≤ 0xF4 then
      match rest with
      | [] => [replChar]
      | b2 :: rest2 =>
        if (utf8B2Range b).1 ≤ b2 ∧ b2 ≤ (utf8B2Range b).2 then
          match rest2 with
          | [] => [replChar]
          | b3 :: rest3 =>
            if utf8Cont b3 then
              match rest3 with
              | [] => [replChar]
              | b4 :: rest4 =>
                if utf8Cont b4 then
                  Char.ofNat ((b - 0xF0) * 262144 + (b2 - 0x80) * 4096 +
                      (b3 - 0x80) * 64 + (b4 - 0x80)) :: utf8DecodeReplace rest4
                else replChar :: utf8DecodeReplace (b4 :: rest4)
            else replChar :: utf8DecodeReplace (b3 :: rest3)
        else replChar :: utf8DecodeReplace (b2 :: rest2)
    else replChar :: utf8DecodeReplace rest

/-- ASCII character test. -/
def isAsciiC (c : Char) : Bool :=
  c.toNat ≤ 127

/-- Process maximal ASCII runs through percent-decoding and UTF-8 decoding;
non-ASCII runs pass through (the run splitting that CPython unquote performs
with its ASCII regular expression). -/
def processRuns : List Char → List Char
  | [] => []
  | c :: rest =>
    if isAsciiC c then
      utf8DecodeReplace (pctDecodeBytes (c :: rest.takeWhile isAsciiC)) ++
        processRuns (rest.dropWhile isAsciiC)
    else
      (c :: rest.takeWhile (fun x => !isAsciiC x)) ++
        processRuns (rest.dropWhile (fun x => !isAsciiC x))
termination_by l => l.length
decreasing_by
  · simp only [List.length_cons]
    have := (List.dropWhile_sublist (l := rest) isAsciiC).length_le
    omega
  · simp only [List.length_cons]
    have := (List.dropWhile_sublist (l := rest) (fun x => !isAsciiC x)).length_le
    omega

/-- Model of urllib.parse.unquote with utf-8/replace.  CPython returns the
string unchanged when it contains no '%'; on such strings the run processing
below is the identity, so that early return is not modelled separately. -/
def unquote (s : List Char) : List Char :=
  processRuns s

/-- The '+'-to-space replacement of unquote_plus. -/
def plusToSpace (s : List Char) : List Char :=
  s.map fun c => if c = '+' then ' ' else c

/-- Model of urllib.parse.unquote_plus. -/
def unquote_plus (s : List Char) : List Char :=
  unquote (plusToSpace s)

/-- Model of urllib.parse.parse_qsl with default arguments: split the query
on '&'; skip empty fields, fields without '=', and fields whose value is
empty; unquote_plus both name and value of the kept fields. -/
def parse_qsl (qs : List Char) : List (List Char × List Char) :=
  (pySplitOn '&' qs).filterMap fun field =>
    if field.isEmpty then none
    else
      match splitOnceChar '=' field with
      | none => none
      | some (n, v) =>
        if v.isEmpty then none else some (unquote_plus n, unquote_plus v)

/-- First value of the named query parameter, as query_params[name][0] after
parse_qs, together with the presence test "name in query_params": `none`
exactly when parse_qs produces no entry for this name. -/
def parse_qs_first (name : List Char) (qs : List Char) : Option (List Char) :=
  ((parse_qsl qs).find? fun p => p.1 == name).map (fun p => p.2)

/-! Constants of subtitler/constants.py. -/

/-- YouTube video ID length (constants.py). -/
def YOUTUBE_VIDEO_ID_LENGTH : Nat := 11

/-- Valid YouTube domains (constants.py); the source uses a set, only
membership is ever queried. -/
def VALID_YOUTUBE_DOMAINS : List (List Char) :=
  [("youtube.com").toList, ("www.youtube.com").toList, ("youtu.be").toList,
    ("m.youtube.com").toList]

/-- Default language preference list (constants.py), in source order. -/
def DEFAULT_LANGUAGES : List (List Char) :=
  [("en").toList, ("fr").toList, ("es").toList, ("de").toList, ("ru").toList,
    ("zh").toList, ("it").toList, ("pt").toList, ("ja").toList, ("ar").toList,
    ("hi").toList, ("bn").toList, ("pa").toList, ("te").toList, ("ta").toList,
    ("ml").toList, ("mr").toList, ("gu").toList, ("kn").toList, ("or").toList,
    ("nl").toList, ("pl").toList, ("ro").toList, ("sv").toList, ("tr").toList,
    ("uk").toList, ("vi").toList, ("yo").toList, ("zu").toList]

/-- Exceptions of subtitler/_exceptions.py that the core raises, each carrying
its message. -/
inductive SubtitlerError where
  | InvalidVideoInputError (msg : List Char)
  | VideoIdExtractionError (msg : List Char)
  | SubtitleExtractionError (msg : List Char)
deriving DecidableEq, Repr

/-- Model of validate_youtube_url (subtitle_extractor.py lines 95-134). -/
def validate_youtube_url (url : List Char) : Bool :=
  if (pyStrip url).isEmpty then false
  else
    match urlparse (pyStrip url) with
    | none => false
    | some p =>
      if lowerL p.netloc ∈ VALID_YOUTUBE_DOMAINS then
        if lowerL p.netloc = ("youtu.be").toList then
          let vid := p.path.dropWhile (fun c => c == '/')
          decide (vid.length = YOUTUBE_VIDEO_ID_LENGTH) && isalnumS vid
        else if p.path = ("/watch").toList ∨ p.path = ("/watch/").toList then
          match parse_qs_first (("v").toList) p.query with
          | some v =>
            decide (v.length = YOUTUBE_VIDEO_ID_LENGTH) && isalnumS (stripUD v)
          | none => false
        else false
      else false

/-- Model of extract_video_id (subtitle_extractor.py lines 137-174).  The
`none` parse case models the ValueError a bracket mismatch raises in CPython,
re-wrapped by the generic except clause of the source. -/
def extract_video_id (url : List Char) : Except SubtitlerError (List Char) :=
  if validate_youtube_url url = false then
    .error (.InvalidVideoInputError (("Invalid YouTube URL: ").toList ++ url))
  else
    match urlparse (pyStrip url) with
    | none =>
      .error (.VideoIdExtractionError
        (("Failed to extract video ID: Invalid IPv6 URL").toList))
    | some p =>
      if lowerL p.netloc = ("youtu.be").toList then
        .ok (p.path.dropWhile (fun c => c == '/'))
      else if p.path = ("/watch").toList ∨ p.path = ("/watch/").toList then
        match parse_qs_first (("v").toList) p.query with
        | some v => .ok v
        | none =>
          .error (.VideoIdExtractionError
            (("Could not extract video ID from URL: ").toList ++ url))
      else
        .error (.VideoIdExtractionError
          (("Could not extract video ID from URL: ").toList ++ url))

/-- Model of validate_video_id (subtitle_extractor.py lines 177-194). -/
def validate_video_id (video_id : List Char) : Bool :=
  if (pyStrip video_id).isEmpty then false
  else
    decide ((pyStrip video_id).length = YOUTUBE_VIDEO_ID_LENGTH) &&
      isalnumS (stripUD (pyStrip video_id))

/-- Model of _extract_video_id_from_input (subtitle_extractor.py lines 66-89);
the source name carries a leading underscore. -/
def extract_video_id_from_input (video_input : List Char) :
    Except SubtitlerError (List Char) :=
  if validate_youtube_url video_input then extract_video_id video_input
  else if validate_video_id video_input then .ok video_input
  else
    .error (.InvalidVideoInputError
      ((("Invalid video input: ").toList ++ video_input) ++
        (". Must be a valid YouTube URL or 11-character video ID").toList))

/-- A transcript fragment returned by the external fetcher; the core reads
only its text attribute. -/
structure TranscriptSnippet where
  text : List Char
deriving DecidableEq, Repr

/-- Outcome of one call to the external fetcher
(YouTubeTranscriptApi().fetch): an ordered snippet sequence, or one of the
named exceptions, or any other exception carrying its description. -/
inductive FetchOutcome where
  | success (snippets : List TranscriptSnippet)
  | transcriptsDisabled
  | videoUnavailable
  | otherError (msg : List Char)
deriving DecidableEq, Repr

/-- Input at the extract_subtitles boundary: a Python string or a value of
any other type (isinstance check, line 41). -/
inductive PyInput where
  | str (s : List Char)
  | nonString
deriving DecidableEq, Repr

/-- Model of the language resolution "languages = languages or
DEFAULT_LANGUAGES" (line 46): Python `or` takes the default when languages is
None or the empty list. -/
def resolveLanguages (languages : Option (List (List Char))) :
    List (List Char) :=
  match languages with
  | none => DEFAULT_LANGUAGES
  | some l => if l.isEmpty then DEFAULT_LANGUAGES else l

instance {ε α : Type} [DecidableEq ε] [DecidableEq α] :
    DecidableEq (Except ε α) := fun x y =>
  match x, y with
  | .ok a, .ok b =>
    if h : a = b then isTrue (by rw [h]) else isFalse (by simp [h])
  | .error a, .error b =>
    if h : a = b then isTrue (by rw [h]) else isFalse (by simp [h])
  | .ok _, .error _ => isFalse (by simp)
  | .error _, .ok _ => isFalse (by simp)

/-- Result of a run of extract_subtitles: the returned string or raised
exception, together with the list of (video_id, languages) calls made to the
external fetcher. -/
structure ExtractionRun where
  result : Except SubtitlerError (List Char)
  fetchCalls : List (List Char × List (List Char))
deriving DecidableEq, Repr

/-- Model of extract_subtitles (subtitle_extractor.py lines 24-63),
parameterized by the behaviour of the external fetcher. -/
def extract_subtitles (fetch : List Char → List (List Char) → FetchOutcome)
    (video_input : PyInput) (languages : Option (List (List Char))) :
    ExtractionRun :=
  match video_input with
  | .nonString =>
    ⟨.error (.InvalidVideoInputError
      (("Video input must be a non-empty string").toList)), []⟩
  | .str s =>
    if (pyStrip s).isEmpty then
      ⟨.error (.InvalidVideoInputError
        (("Video input must be a non-empty string").toList)), []⟩
    else
      match extract_video_id_from_input (pyStrip s) with
      | .error e => ⟨.error e, []⟩
      | .ok video_id =>
        let langs := resolveLanguages languages
        match fetch video_id langs with
        | .success snippets =>
          ⟨.ok (List.intercalate ([' ']) (snippets.map TranscriptSnippet.text)),
            [(video_id, langs)]⟩
        | .transcriptsDisabled =>
          ⟨.error (.SubtitleExtractionError
            (("Subtitles are disabled for video ").toList ++ video_id)),
            [(video_id, langs)]⟩
        | .videoUnavailable =>
          ⟨.error (.SubtitleExtractionError
            ((("Video ").toList ++ video_id) ++ (" is unavailable").toList)),
            [(video_id, langs)]⟩
        | .otherError m =>
          ⟨.error (.SubtitleExtractionError
            (((("Failed to extract subtitles for ").toList ++ video_id) ++
              (": ").toList) ++ m)),
            [(video_id, langs)]⟩

/-- The watch-URL stem used by the claims about
https://www.youtube.com/watch?v= URLs. -/
def watchPre : List Char :=
  ("https://www.youtube.com/watch?v=").toList

/-- The short-URL stem used by the claims about https://youtu.be/ URLs. -/
def bePre : List Char :=
  ("https://youtu.be/").toList

/-! Helper lemmas about the split and strip primitives. -/

theorem splitOnceChar_of_not_mem {c : Char} {l : List Char}
    (h : ∀ a ∈ l, a ≠ c) : splitOnceChar c l = none := by
  induction l with
  | nil => rfl
  | cons a rest ih =>
    simp only [splitOnceChar]
    rw [if_neg (h a (by simp)), ih (fun x hx => h x (by simp [hx]))]
    rfl

theorem splitOnceChar_append_not_mem {c : Char} {l1 l2 : List Char}
    (h : ∀ a ∈ l1, a ≠ c) :
    splitOnceChar c (l1 ++ l2) =
      (splitOnceChar c l2).map (fun p => (l1 ++ p.1, p.2)) := by
  induction l1 with
  | nil =>
    simp only [List.nil_append]
    cases splitOnceChar c l2 <;> simp
  | cons a rest ih =>
    simp only [List.cons_append, splitOnceChar, List.append_eq]
    rw [if_neg (h a (by simp)), ih (fun x hx => h x (by simp [hx]))]
    cases splitOnceChar c l2 <;> simp

theorem splitOnceChar_append_cons {c : Char} {l1 l2 : List Char}
    (h : ∀ a ∈ l1, a ≠ c) :
    splitOnceChar c (l1 ++ c :: l2) = some (l1, l2) := by
  rw [splitOnceChar_append_not_mem h]
  simp [splitOnceChar]

theorem splitOnceChar_some_eq {c : Char} {l a b : List Char}
    (h : splitOnceChar c l = some (a, b)) : l = a ++ c :: b := by
  induction l generalizing a b with
  | nil => simp [splitOnceChar] at h
  | cons x rest ih =>
    simp only [splitOnceChar] at h
    by_cases hx : x = c
    · rw [if_pos hx] at h
      simp only [Option.some.injEq, Prod.mk.injEq] at h
      rw [← h.1, ← h.2, hx]
      simp
    · rw [if_neg hx] at h
      cases hs : splitOnceChar c rest with
      | none => rw [hs] at h; simp at h
      | some p =>
        rw [hs] at h
        simp only [Option.map, Option.some.injEq, Prod.mk.injEq] at h
        obtain ⟨h1, h2⟩ := h
        have := ih (a := p.1) (b := p.2) (by rw [hs])
        rw [← h1, ← h2, this]
        simp

theorem takeUntilAny_no_stop {stops l : List Char}
    (h : ∀ a ∈ l, a ∉ stops) : takeUntilAny stops l = (l, []) := by
  induction l with
  | nil => rfl
  | cons a rest ih =>
    simp only [takeUntilAny]
    rw [if_neg (h a (by simp)), ih (fun x hx => h x (by simp [hx]))]

theorem takeUntilAny_append_stop {stops l1 l2 : List Char} {d : Char}
    (h : ∀ a ∈ l1, a ∉ stops) (hd : d ∈ stops) :
    takeUntilAny stops (l1 ++ d :: l2) = (l1, d :: l2) := by
  induction l1 with
  | nil => simp [takeUntilAny, hd]
  | cons a rest ih =>
    simp only [List.cons_append, takeUntilAny, List.append_eq]
    rw [if_neg (h a (by simp)), ih (fun x hx => h x (by simp [hx]))]

theorem splitHash_append {l1 l2 : List Char} (h : ∀ a ∈ l1, a ≠ '#') :
    splitHash (l1 ++ l2) = (l1 ++ (splitHash l2).1, (splitHash l2).2) := by
  unfold splitHash
  rw [splitOnceChar_append_not_mem h]
  cases splitOnceChar '#' l2 <;> simp

theorem splitHash_no_hash {l : List Char} (h : ∀ a ∈ l, a ≠ '#') :
    splitHash l = (l, []) := by
  unfold splitHash
  rw [splitOnceChar_of_not_mem h]

theorem splitQm_append {l1 l2 : List Char} (h : ∀ a ∈ l1, a ≠ '?') :
    splitQm (l1 ++ l2) = (l1 ++ (splitQm l2).1, (splitQm l2).2) := by
  unfold splitQm
  rw [splitOnceChar_append_not_mem h]
  cases splitOnceChar '?' l2 <;> simp

theorem splitQm_found {l1 l2 : List Char} (h : ∀ a ∈ l1, a ≠ '?') :
    splitQm (l1 ++ '?' :: l2) = (l1, l2) := by
  unfold splitQm
  rw [splitOnceChar_append_cons h]

theorem splitQm_no_qm {l : List Char} (h : ∀ a ∈ l, a ≠ '?') :
    splitQm l = (l, []) := by
  unfold splitQm
  rw [splitOnceChar_of_not_mem h]

theorem dropWhile_eq_self_of_all {p : Char → Bool} {l : List Char}
    (h : ∀ a ∈ l, p a = false) : l.dropWhile p = l := by
  cases l with
  | nil => rfl
  | cons a rest =>
    exact List.dropWhile_cons_of_neg (by simp [h a (by simp)])

theorem dropWhileP_append_eq {p : Char → Bool} {pre l : List Char}
    (hne : pre ≠ []) (h : pre.dropWhile p = pre) :
    (pre ++ l).dropWhile p = pre ++ l := by
  rw [List.dropWhile_append, h]
  cases pre with
  | nil => exact absurd rfl hne
  | cons a rest => simp

theorem dropWhile_idem {p : Char → Bool} (l : List Char) :
    (l.dropWhile p).dropWhile p = l.dropWhile p := by
  induction l with
  | nil => rfl
  | cons a rest ih =>
    by_cases h : p a = true
    · rw [List.dropWhile_cons_of_pos h]
      exact ih
    · rw [List.dropWhile_cons_of_neg (by simpa using h),
        List.dropWhile_cons_of_neg (by simpa using h)]

theorem pyLstrip_append {pre l : List Char} (hne : pre ≠ [])
    (h : pre.dropWhile pyIsSpaceChar = pre) :
    pyLstrip (pre ++ l) = pre ++ l := by
  unfold pyLstrip
  exact dropWhileP_append_eq hne h

theorem pyRstrip_append {pre l : List Char}
    (h : pre.reverse.dropWhile pyIsSpaceChar = pre.reverse) :
    pyRstrip (pre ++ l) = pre ++ pyRstrip l := by
  unfold pyRstrip
  rw [List.reverse_append, List.dropWhile_append]
  by_cases he : (l.reverse.dropWhile pyIsSpaceChar).isEmpty
  · rw [if_pos he, h]
    have h0 : l.reverse.dropWhile pyIsSpaceChar = [] := by
      simpa using he
    rw [h0]
    simp
  · rw [if_neg he]
    simp

theorem pyStrip_append {pre l : List Char} (hne : pre ≠ [])
    (h1 : pre.dropWhile pyIsSpaceChar = pre)
    (h2 : pre.reverse.dropWhile pyIsSpaceChar = pre.reverse) :
    pyStrip (pre ++ l) = pre ++ pyRstrip l := by
  unfold pyStrip
  rw [pyLstrip_append hne h1, pyRstrip_append h2]

theorem pyLstrip_idem (l : List Char) : pyLstrip (pyLstrip l) = pyLstrip l :=
  dropWhile_idem l

theorem pyRstrip_idem (l : List Char) : pyRstrip (pyRstrip l) = pyRstrip l := by
  unfold pyRstrip
  rw [List.reverse_reverse, dropWhile_idem]

theorem pyLstrip_pyRstrip {l : List Char} (h : pyLstrip l = l) :
    pyLstrip (pyRstrip l) = pyRstrip l := by
  have hpre : pyRstrip l <+: l := by
    unfold pyRstrip
    rw [show l = l.reverse.reverse from (List.reverse_reverse l).symm]
    rw [List.reverse_reverse]
    exact List.reverse_prefix.mpr (List.dropWhile_suffix pyIsSpaceChar)
  obtain ⟨u, hu⟩ := hpre
  cases hp : pyRstrip l with
  | nil => rfl
  | cons a rest =>
    rw [hp] at hu
    have ha : pyIsSpaceChar a = false := by
      by_cases hsp : pyIsSpaceChar a = true
      · exfalso
        have hlt : (pyLstrip l).length < l.length := by
          rw [← hu]
          unfold pyLstrip
          rw [List.cons_append, List.dropWhile_cons_of_pos hsp]
          have := (List.dropWhile_sublist (l := rest ++ u)
            pyIsSpaceChar).length_le
          simp only [List.length_cons]
          omega
        rw [h] at hlt
        omega
      · simpa using hsp
    unfold pyLstrip
    rw [List.dropWhile_cons_of_neg (by simp [ha])]

theorem pyStrip_idem (l : List Char) : pyStrip (pyStrip l) = pyStrip l := by
  unfold pyStrip
  rw [pyLstrip_pyRstrip (pyLstrip_idem l), pyRstrip_idem]

theorem pyStrip_eq_self {l : List Char}
    (h : ∀ a ∈ l, pyIsSpaceChar a = false) : pyStrip l = l := by
  unfold pyStrip pyLstrip pyRstrip
  rw [dropWhile_eq_self_of_all h,
    dropWhile_eq_self_of_all (fun a ha => h a (List.mem_reverse.mp ha)),
    List.reverse_reverse]

/-! Character-class facts. -/

theorem isalnumChar_not_space {c : Char} (h : isalnumChar c = true) :
    pyIsSpaceChar c = false := by
  simp only [isalnumChar, Bool.or_eq_true, Bool.and_eq_true,
    decide_eq_true_eq] at h
  simp only [pyIsSpaceChar, Bool.or_eq_false_iff, Bool.and_eq_false_iff,
    decide_eq_false_iff_not, Nat.not_le, beq_eq_false_iff_ne, ne_eq]
  omega

theorem isalnumChar_ne_of {c d : Char} (h : isalnumChar c = true)
    (hd : isalnumChar d = false) : c ≠ d := by
  intro he
  rw [he, hd] at h
  cases h

theorem validChar_not_space {c : Char}
    (h : isalnumChar c = true ∨ c = '_' ∨ c = '-') :
    pyIsSpaceChar c = false := by
  rcases h with h | rfl | rfl
  · exact isalnumChar_not_space h
  · decide
  · decide

theorem validChar_ne_of {c d : Char}
    (h : isalnumChar c = true ∨ c = '_' ∨ c = '-')
    (hd : isalnumChar d = false) (h1 : d ≠ '_') (h2 : d ≠ '-') : c ≠ d := by
  rcases h with h | rfl | rfl
  · exact isalnumChar_ne_of h hd
  · exact fun he => h1 he.symm
  · exact fun he => h2 he.symm

theorem isalnumS_all {s : List Char} (h : isalnumS s = true) :
    ∀ c ∈ s, isalnumChar c = true := by
  simp only [isalnumS, Bool.and_eq_true, List.all_eq_true] at h
  exact h.2

theorem stripUD_all {s : List Char} (h : isalnumS (stripUD s) = true) :
    ∀ c ∈ s, isalnumChar c = true ∨ c = '_' ∨ c = '-' := by
  intro c hc
  by_cases h1 : c = '_'
  · right; left; exact h1
  · by_cases h2 : c = '-'
    · right; right; exact h2
    · left
      refine isalnumS_all h c ?_
      unfold stripUD
      rw [List.mem_filter]
      refine ⟨hc, ?_⟩
      simp [h1, h2]

/-! Characterization of parsing the two URL shapes of the claims. -/

theorem urlsplit_watch (t : List Char) :
    urlsplit (watchPre ++ t) =
      some ⟨("https").toList, ("www.youtube.com").toList, ("/watch").toList,
        'v' :: '=' :: (splitHash (removeUnsafe t)).1,
        (splitHash (removeUnsafe t)).2⟩ := by
  have e1 : lstripC0 (watchPre ++ t) = watchPre ++ t := by
    unfold lstripC0
    exact dropWhileP_append_eq (by decide) (by decide)
  have e2 : removeUnsafe (watchPre ++ t) = watchPre ++ removeUnsafe t := by
    unfold removeUnsafe
    rw [List.filter_append,
      show watchPre.filter (fun c => !(c == '\t' || c == '\r' || c == '\n')) =
        watchPre from by decide]
  have e3 : splitOnceChar ':' (watchPre ++ removeUnsafe t) =
      some (("https").toList,
        ("//www.youtube.com/watch?v=").toList ++ removeUnsafe t) := by
    rw [show watchPre = ("https").toList ++ ':' ::
        ("//www.youtube.com/watch?v=").toList from by decide,
      List.append_assoc, List.cons_append]
    exact splitOnceChar_append_cons (by decide)
  have e4 : splitScheme (watchPre ++ removeUnsafe t) =
      (("https").toList,
        ("//www.youtube.com/watch?v=").toList ++ removeUnsafe t) := by
    unfold splitScheme
    rw [e3]
    rfl
  have e5 : (("//www.youtube.com/watch?v=").toList ++ removeUnsafe t).take 2 =
      ['/', '/'] := by
    rw [show ("//www.youtube.com/watch?v=").toList =
      '/' :: '/' :: ("www.youtube.com/watch?v=").toList from by decide]
    rfl
  have e6 : (("//www.youtube.com/watch?v=").toList ++ removeUnsafe t).drop 2 =
      ("www.youtube.com/watch?v=").toList ++ removeUnsafe t := by
    rw [show ("//www.youtube.com/watch?v=").toList =
      '/' :: '/' :: ("www.youtube.com/watch?v=").toList from by decide]
    rfl
  have e7 : takeUntilAny ['/', '?', '#']
      (("www.youtube.com/watch?v=").toList ++ removeUnsafe t) =
      (("www.youtube.com").toList, '/' :: (("watch?v=").toList ++
        removeUnsafe t)) := by
    rw [show ("www.youtube.com/watch?v=").toList =
        ("www.youtube.com").toList ++ '/' :: ("watch?v=").toList from by decide,
      List.append_assoc, List.cons_append]
    exact takeUntilAny_append_stop (by decide) (by decide)
  have e9 : splitHash ('/' :: (("watch?v=").toList ++ removeUnsafe t)) =
      (('/' :: ("watch?v=").toList) ++ (splitHash (removeUnsafe t)).1,
        (splitHash (removeUnsafe t)).2) := by
    rw [show '/' :: (("watch?v=").toList ++ removeUnsafe t) =
      ('/' :: ("watch?v=").toList) ++ removeUnsafe t from by simp]
    exact splitHash_append (by decide)
  have e10 : splitQm (('/' :: ("watch?v=").toList) ++
      (splitHash (removeUnsafe t)).1) =
      (("/watch").toList, 'v' :: '=' :: (splitHash (removeUnsafe t)).1) := by
    rw [show '/' :: ("watch?v=").toList =
        ("/watch").toList ++ '?' :: ('v' :: '=' :: []) from by decide,
      List.append_assoc, List.cons_append,
      show ('v' :: '=' :: []) ++ (splitHash (removeUnsafe t)).1 =
        'v' :: '=' :: (splitHash (removeUnsafe t)).1 from by simp]
    exact splitQm_found (by decide)
  unfold urlsplit
  simp only [e1, e2, e4, e5, e6, e7, e9, e10]
  rw [if_pos trivial, if_neg (by decide)]

theorem urlparse_watch (id : List Char) :
    urlparse (pyStrip (watchPre ++ id)) =
      some ⟨("https").toList, ("www.youtube.com").toList, ("/watch").toList,
        [], 'v' :: '=' :: (splitHash (removeUnsafe (pyRstrip id))).1,
        (splitHash (removeUnsafe (pyRstrip id))).2⟩ := by
  rw [pyStrip_append (by decide) (by decide) (by decide)]
  unfold urlparse
  rw [urlsplit_watch]
  simp only
  rw [show splitparams (("/watch").toList) = (("/watch").toList, []) from
    by decide]

theorem urlsplit_be (t : List Char) :
    urlsplit (bePre ++ t) =
      some ⟨("https").toList, ("youtu.be").toList,
        '/' :: (splitQm (splitHash (removeUnsafe t)).1).1,
        (splitQm (splitHash (removeUnsafe t)).1).2,
        (splitHash (removeUnsafe t)).2⟩ := by
  have e1 : lstripC0 (bePre ++ t) = bePre ++ t := by
    unfold lstripC0
    exact dropWhileP_append_eq (by decide) (by decide)
  have e2 : removeUnsafe (bePre ++ t) = bePre ++ removeUnsafe t := by
    unfold removeUnsafe
    rw [List.filter_append,
      show bePre.filter (fun c => !(c == '\t' || c == '\r' || c == '\n')) =
        bePre from by decide]
  have e3 : splitOnceChar ':' (bePre ++ removeUnsafe t) =
      some (("https").toList, ("//youtu.be/").toList ++ removeUnsafe t) := by
    rw [show bePre = ("https").toList ++ ':' :: ("//youtu.be/").toList from
      by decide, List.append_assoc, List.cons_append]
    exact splitOnceChar_append_cons (by decide)
  have e4 : splitScheme (bePre ++ removeUnsafe t) =
      (("https").toList, ("//youtu.be/").toList ++ removeUnsafe t) := by
    unfold splitScheme
    rw [e3]
    rfl
  have e5 : (("//youtu.be/").toList ++ removeUnsafe t).take 2 = ['/', '/'] := by
    rw [show ("//youtu.be/").toList =
      '/' :: '/' :: ("youtu.be/").toList from by decide]
    rfl
  have e6 : (("//youtu.be/").toList ++ removeUnsafe t).drop 2 =
      ("youtu.be/").toList ++ removeUnsafe t := by
    rw [show ("//youtu.be/").toList =
      '/' :: '/' :: ("youtu.be/").toList from by decide]
    rfl
  have e7 : takeUntilAny ['/', '?', '#']
      (("youtu.be/").toList ++ removeUnsafe t) =
      (("youtu.be").toList, '/' :: removeUnsafe t) := by
    rw [show ("youtu.be/").toList =
        ("youtu.be").toList ++ '/' :: ([] : List Char) from by decide,
      List.append_assoc, List.cons_append, List.nil_append]
    exact takeUntilAny_append_stop (by decide) (by decide)
  have e9 : splitHash ('/' :: removeUnsafe t) =
      ('/' :: (splitHash (removeUnsafe t)).1,
        (splitHash (removeUnsafe t)).2) := by
    rw [show '/' :: removeUnsafe t = ['/'] ++ removeUnsafe t from by simp]
    rw [splitHash_append (by decide)]
    simp
  have e10 : splitQm ('/' :: (splitHash (removeUnsafe t)).1) =
      ('/' :: (splitQm (splitHash (removeUnsafe t)).1).1,
        (splitQm (splitHash (removeUnsafe t)).1).2) := by
    rw [show '/' :: (splitHash (removeUnsafe t)).1 =
      ['/'] ++ (splitHash (removeUnsafe t)).1 from by simp]
    rw [splitQm_append (by decide)]
    simp
  unfold urlsplit
  simp only [e1, e2, e4, e5, e6, e7, e9, e10]
  rw [if_pos trivial, if_neg (by decide)]

theorem urlparse_be (id : List Char) :
    urlparse (pyStrip (bePre ++ id)) =
      some ⟨("https").toList, ("youtu.be").toList,
        (splitparams
          ('/' :: (splitQm (splitHash (removeUnsafe (pyRstrip id))).1).1)).1,
        (splitparams
          ('/' :: (splitQm (splitHash (removeUnsafe (pyRstrip id))).1).1)).2,
        (splitQm (splitHash (removeUnsafe (pyRstrip id))).1).2,
        (splitHash (removeUnsafe (pyRstrip id))).2⟩ := by
  rw [pyStrip_append (by decide) (by decide) (by decide)]
  unfold urlparse
  rw [urlsplit_be]

/-! Branch analysis of validate_youtube_url and extract_video_id. -/

theorem validate_true_elim {url : List Char}
    (h : validate_youtube_url url = true) :
    ∃ p, urlparse (pyStrip url) = some p ∧
      lowerL p.netloc ∈ VALID_YOUTUBE_DOMAINS ∧
      ((lowerL p.netloc = ("youtu.be").toList ∧
          (p.path.dropWhile (fun c => c == '/')).length = 11 ∧
          isalnumS (p.path.dropWhile (fun c => c == '/')) = true)
       ∨ (lowerL p.netloc ≠ ("youtu.be").toList ∧
          (p.path = ("/watch").toList ∨ p.path = ("/watch/").toList) ∧
          ∃ v, parse_qs_first (("v").toList) p.query = some v ∧
            v.length = 11 ∧ isalnumS (stripUD v) = true)) := by
  unfold validate_youtube_url at h
  split at h
  · exact absurd h (by simp)
  · split at h
    · exact absurd h (by simp)
    · rename_i p hp
      refine ⟨p, hp, ?_⟩
      split at h
      · rename_i hdom
        refine ⟨hdom, ?_⟩
        split at h
        · rename_i hbe
          left
          simp only [Bool.and_eq_true, decide_eq_true_eq] at h
          exact ⟨hbe, h.1, h.2⟩
        · rename_i hbe
          right
          split at h
          · rename_i hpath
            refine ⟨hbe, hpath, ?_⟩
            split at h
            · rename_i v hv
              simp only [Bool.and_eq_true, decide_eq_true_eq] at h
              exact ⟨v, hv, h.1, h.2⟩
            · exact absurd h (by simp)
          · exact absurd h (by simp)
      · exact absurd h (by simp)

theorem extract_be {url : List Char} {p : ParsedUrl}
    (hval : validate_youtube_url url = true)
    (hp : urlparse (pyStrip url) = some p)
    (hbe : lowerL p.netloc = ("youtu.be").toList) :
    extract_video_id url = .ok (p.path.dropWhile (fun c => c == '/')) := by
  unfold extract_video_id
  rw [if_neg (by simp [hval]), hp]
  simp only
  rw [if_pos hbe]

theorem extract_watch {url : List Char} {p : ParsedUrl} {v : List Char}
    (hval : validate_youtube_url url = true)
    (hp : urlparse (pyStrip url) = some p)
    (hbe : lowerL p.netloc ≠ ("youtu.be").toList)
    (hpath : p.path = ("/watch").toList ∨ p.path = ("/watch/").toList)
    (hv : parse_qs_first (("v").toList) p.query = some v) :
    extract_video_id url = .ok v := by
  unfold extract_video_id
  rw [if_neg (by simp [hval]), hp]
  simp only
  rw [if_neg hbe, if_pos hpath, hv]

theorem splitScheme_snd_mem {u : List Char} {x : Char}
    (hx : x ∈ (splitScheme u).2) : x ∈ u := by
  unfold splitScheme at hx
  split at hx
  · exact hx
  · exact hx
  · rename_i c pre post heq
    split at hx
    · rw [splitOnceChar_some_eq heq]
      simp only [Prod.snd] at hx
      simp [hx]
    · exact hx

theorem contains_eq_false_of_not_mem {l : List Char} {a : Char} (h : a ∉ l) :
    l.contains a = false := by
  rw [Bool.eq_false_iff]
  intro hc
  obtain ⟨b, hb, he⟩ := List.contains_iff_exists_mem_beq.mp hc
  rw [beq_iff_eq] at he
  exact h (he ▸ hb)

theorem slash_mem_of_netloc {s : List Char} {p : ParsedUrl}
    (h : urlparse s = some p) (hn : p.netloc ≠ []) : '/' ∈ s := by
  unfold urlparse at h
  cases hu : urlsplit s with
  | none => rw [hu] at h; exact absurd h (by simp)
  | some r =>
    rw [hu] at h
    simp only [Option.some.injEq] at h
    have hpn : p.netloc = r.netloc := by rw [← h]
    rw [hpn] at hn
    unfold urlsplit at hu
    by_cases hc :
        (splitScheme (removeUnsafe (lstripC0 s))).2.take 2 = ['/', '/']
    · have hsl : '/' ∈ (splitScheme (removeUnsafe (lstripC0 s))).2 := by
        have : '/' ∈ (splitScheme (removeUnsafe (lstripC0 s))).2.take 2 := by
          rw [hc]; simp
        exact List.take_subset 2 _ this
      have h2 : '/' ∈ removeUnsafe (lstripC0 s) := splitScheme_snd_mem hsl
      have h3 : '/' ∈ lstripC0 s := by
        unfold removeUnsafe at h2
        exact (List.mem_filter.mp h2).1
      exact (List.dropWhile_sublist _).subset h3
    · exfalso
      rw [if_neg hc] at hu
      simp only [Option.some.injEq] at hu
      apply hn
      rw [← hu]

theorem vvi_false_of_slash {url : List Char} (h : '/' ∈ pyStrip url) :
    validate_video_id url = false := by
  unfold validate_video_id
  rw [if_neg (by simp [List.isEmpty_iff]; exact List.ne_nil_of_mem h)]
  have h2 : '/' ∈ stripUD (pyStrip url) := by
    unfold stripUD
    rw [List.mem_filter]
    exact ⟨h, by decide⟩
  have h3 : isalnumS (stripUD (pyStrip url)) = false := by
    unfold isalnumS
    cases h4 : (stripUD (pyStrip url)).all isalnumChar with
    | false => simp
    | true =>
      exfalso
      have := List.all_eq_true.mp h4 '/' h2
      exact absurd this (by decide)
  rw [h3, Bool.and_false]

/-! Parsing of plain identifier strings (no URL structure). -/

theorem urlparse_plain {s : List Char}
    (h : ∀ c ∈ s, isalnumChar c = true ∨ c = '_' ∨ c = '-') :
    urlparse s = some ⟨[], [], s, [], [], []⟩ := by
  have hmem : ∀ (d : Char), isalnumChar d = false → d ≠ '_' → d ≠ '-' →
      d ∉ s := by
    intro d hd h1 h2 hds
    rcases h d hds with hh | hh | hh
    · rw [hh] at hd; cases hd
    · exact h1 hh
    · exact h2 hh
  have e1 : lstripC0 s = s := by
    unfold lstripC0
    apply dropWhile_eq_self_of_all
    intro a ha
    rcases h a ha with hh | hh | hh
    · simp only [isalnumChar, Bool.or_eq_true, Bool.and_eq_true,
        decide_eq_true_eq] at hh
      simp only [decide_eq_false_iff_not, Nat.not_le]
      omega
    · rw [hh]; decide
    · rw [hh]; decide
  have e2 : removeUnsafe s = s := by
    unfold removeUnsafe
    rw [List.filter_eq_self]
    intro a ha
    have t1 : a ≠ '\t' :=
      validChar_ne_of (h a ha) (by decide) (by decide) (by decide)
    have t2 : a ≠ '\r' :=
      validChar_ne_of (h a ha) (by decide) (by decide) (by decide)
    have t3 : a ≠ '\n' :=
      validChar_ne_of (h a ha) (by decide) (by decide) (by decide)
    simp [t1, t2, t3]
  have e3 : splitScheme s = ([], s) := by
    unfold splitScheme
    rw [splitOnceChar_of_not_mem (fun a ha =>
      validChar_ne_of (h a ha) (by decide) (by decide) (by decide))]
  have e4 : ¬ (s.take 2 = ['/', '/']) := by
    intro hc
    have hsl : '/' ∈ s := List.take_subset 2 s (by rw [hc]; simp)
    rcases h '/' hsl with hh | hh | hh <;> exact absurd hh (by decide)
  have e5 : splitHash s = (s, []) := splitHash_no_hash (fun a ha =>
    validChar_ne_of (h a ha) (by decide) (by decide) (by decide))
  have e6 : splitQm s = (s, []) := splitQm_no_qm (fun a ha =>
    validChar_ne_of (h a ha) (by decide) (by decide) (by decide))
  have e7 : splitparams s = (s, []) := by
    unfold splitparams
    rw [contains_eq_false_of_not_mem
      (hmem ';' (by decide) (by decide) (by decide))]
    simp
  unfold urlparse urlsplit
  simp only [e1, e2, e3]
  rw [if_neg e4]
  simp only [e5, e6, e7]

theorem validate_url_false_of_plain {s : List Char}
    (h : ∀ c ∈ s, isalnumChar c = true ∨ c = '_' ∨ c = '-') :
    validate_youtube_url s = false := by
  have hstrip : pyStrip s = s :=
    pyStrip_eq_self (fun a ha => validChar_not_space (h a ha))
  by_cases hs : s = []
  · rw [hs]; decide
  · unfold validate_youtube_url
    rw [hstrip, if_neg (by simp [List.isEmpty_iff, hs]), urlparse_plain h]
    simp only
    rw [if_neg (by decide)]

/-! Claims C1, C9, C10. -/

/-- Claim C1, counterexample: the string of eleven underscores is an
11-character string composed only of letters, digits, underscore and hyphen,
yet direct-ID validation rejects it (Python str.isalnum is False on the
empty remainder after stripping underscores and hyphens) and normalization
fails. -/
theorem claim1_counterexample :
    (("___________").toList).length = 11 ∧
    (∀ c ∈ ("___________").toList,
      isalnumChar c = true ∨ c = '_' ∨ c = '-') ∧
    validate_video_id (("___________").toList) = false ∧
    extract_video_id_from_input (("___________").toList) =
      .error (.InvalidVideoInputError
        ((("Invalid video input: ").toList ++ ("___________").toList) ++
          (". Must be a valid YouTube URL or 11-character video ID").toList))
    := by
  refine ⟨by decide, by decide, by decide, by decide⟩

/-- Claim C1, amended: for every 11-character string composed only of
letters, digits, underscore and hyphen that contains at least one letter or
digit, direct-ID validation succeeds and normalization returns the string
unchanged as the VideoId. -/
theorem claim1_amended_direct_id (s : List Char) (hlen : s.length = 11)
    (hchars : ∀ c ∈ s, isalnumChar c = true ∨ c = '_' ∨ c = '-')
    (halnum : ∃ c ∈ s, isalnumChar c = true) :
    validate_video_id s = true ∧ extract_video_id_from_input s = .ok s := by
  have hstrip : pyStrip s = s :=
    pyStrip_eq_self (fun a ha => validChar_not_space (hchars a ha))
  have hne : s ≠ [] := by
    intro he
    rw [he] at hlen
    simp at hlen
  have hvv : validate_video_id s = true := by
    unfold validate_video_id
    rw [hstrip, if_neg (by simp [List.isEmpty_iff, hne]), hlen]
    have hsud : isalnumS (stripUD s) = true := by
      unfold isalnumS
      obtain ⟨c, hc, hcal⟩ := halnum
      have hcmem : c ∈ stripUD s := by
        unfold stripUD
        rw [List.mem_filter]
        refine ⟨hc, ?_⟩
        have n1 : c ≠ '_' := isalnumChar_ne_of hcal (by decide)
        have n2 : c ≠ '-' := isalnumChar_ne_of hcal (by decide)
        simp [n1, n2]
      rw [Bool.and_eq_true]
      constructor
      · simp only [Bool.not_eq_true', List.isEmpty_iff]
        exact List.isEmpty_eq_false_iff_exists_mem.mpr ⟨c, hcmem⟩
      · rw [List.all_eq_true]
        intro a ha
        obtain ⟨hamem, hapred⟩ := List.mem_filter.mp ha
        rcases hchars a hamem with hh | hh | hh
        · exact hh
        · rw [hh] at hapred; simp at hapred
        · rw [hh] at hapred; simp at hapred
    rw [hsud]
    decide
  refine ⟨hvv, ?_⟩
  unfold extract_video_id_from_input
  rw [if_neg (by simp [validate_url_false_of_plain hchars]),
    if_pos (by simp [hvv])]

/-- Claim C9: a URL whose parsed host is non-empty and not one of the four
recognized values fails normalization with InvalidVideoInputError,
regardless of path or query shape. -/
theorem claim9_unrecognized_host (url : List Char) (p : ParsedUrl)
    (hp : urlparse (pyStrip url) = some p) (hne : p.netloc ≠ [])
    (hdom : lowerL p.netloc ∉ VALID_YOUTUBE_DOMAINS) :
    extract_video_id_from_input url =
      .error (.InvalidVideoInputError
        ((("Invalid video input: ").toList ++ url) ++
          (". Must be a valid YouTube URL or 11-character video ID").toList))
    := by
  have hval : validate_youtube_url url = false := by
    unfold validate_youtube_url
    split
    · rfl
    · rw [hp]
      simp only
      rw [if_neg hdom]
  have hvv : validate_video_id url = false :=
    vvi_false_of_slash (slash_mem_of_netloc hp hne)
  unfold extract_video_id_from_input
  rw [if_neg (by simp [hval]), if_neg (by simp [hvv])]

/-- Claim C10: whenever validate_youtube_url accepts a URL, extract_video_id
returns a video id and never raises; its error branches are unreachable
under that precondition. -/
theorem claim10_validate_implies_extract_ok (url : List Char)
    (h : validate_youtube_url url = true) :
    ∃ v, extract_video_id url = .ok v := by
  obtain ⟨p, hp, _hdom, hcase⟩ := validate_true_elim h
  rcases hcase with ⟨hbe, _, _⟩ | ⟨hbe, hpath, v, hv, _, _⟩
  · exact ⟨_, extract_be h hp hbe⟩
  · exact ⟨v, extract_watch h hp hbe hpath hv⟩

/-! Claims about the orchestrator extract_subtitles. -/

theorem normalize_ok_props {t v : List Char} (hidem : pyStrip t = t)
    (h : extract_video_id_from_input t = .ok v) :
    v.length = 11 ∧ ∀ c ∈ v, isalnumChar c = true ∨ c = '_' ∨ c = '-' := by
  unfold extract_video_id_from_input at h
  by_cases hval : validate_youtube_url t = true
  · rw [if_pos hval] at h
    obtain ⟨p, hp, _hdom, hcase⟩ := validate_true_elim hval
    rcases hcase with ⟨hbe, hlen, halnum⟩ | ⟨hbe, hpath, v', hv', hlen, halnum⟩
    · rw [extract_be hval hp hbe] at h
      simp only [Except.ok.injEq] at h
      rw [← h]
      exact ⟨hlen, fun c hc => Or.inl (isalnumS_all halnum c hc)⟩
    · rw [extract_watch hval hp hbe hpath hv'] at h
      simp only [Except.ok.injEq] at h
      rw [← h]
      exact ⟨hlen, stripUD_all halnum⟩
  · rw [if_neg hval] at h
    by_cases hvid : validate_video_id t = true
    · rw [if_pos hvid] at h
      simp only [Except.ok.injEq] at h
      unfold validate_video_id at hvid
      rw [hidem] at hvid
      split at hvid
      · exact absurd hvid (by simp)
      · simp only [Bool.and_eq_true, decide_eq_true_eq] at hvid
        rw [← h]
        exact ⟨hvid.1, stripUD_all hvid.2⟩
    · rw [if_neg hvid] at h
      exact absurd h (by simp)

/-- Claim C4: every call made to the external fetcher carries a validated
video id (exactly 11 characters, each alphanumeric or underscore or hyphen),
and when a fetch call was made the run did not fail with
InvalidVideoInputError; equivalently, a normalization failure never reaches
the fetcher. -/
theorem claim4_fetch_only_validated
    (fetch : List Char → List (List Char) → FetchOutcome) (input : PyInput)
    (langs : Option (List (List Char)))
    (call : List Char × List (List Char))
    (hc : call ∈ (extract_subtitles fetch input langs).fetchCalls) :
    call.1.length = 11 ∧
    (∀ c ∈ call.1, isalnumChar c = true ∨ c = '_' ∨ c = '-') ∧
    ∀ m, (extract_subtitles fetch input langs).result ≠
      .error (.InvalidVideoInputError m) := by
  cases input with
  | nonString => simp [extract_subtitles] at hc
  | str s =>
    simp only [extract_subtitles] at hc ⊢
    by_cases he : (pyStrip s).isEmpty = true
    · rw [if_pos he] at hc
      simp at hc
    · rw [if_neg he] at hc ⊢
      cases hx : extract_video_id_from_input (pyStrip s) with
      | error e =>
        rw [hx] at hc
        simp at hc
      | ok vid =>
        rw [hx] at hc
        have hprops := normalize_ok_props (pyStrip_idem s) hx
        cases hf : fetch vid (resolveLanguages langs)
        all_goals
          simp only [hf, List.mem_singleton] at hc
          subst hc
          refine ⟨hprops.1, hprops.2, fun m => ?_⟩
          simp [hx, hf]

theorem run_of_normalized
    (fetch : List Char → List (List Char) → FetchOutcome) {s : List Char}
    (langs : Option (List (List Char))) {vid : List Char}
    (h1 : (pyStrip s).isEmpty = false)
    (h2 : extract_video_id_from_input (pyStrip s) = .ok vid) :
    extract_subtitles fetch (.str s) langs =
      (match fetch vid (resolveLanguages langs) with
        | .success snippets =>
          ⟨.ok (List.intercalate ([' ']) (snippets.map TranscriptSnippet.text)),
            [(vid, resolveLanguages langs)]⟩
        | .transcriptsDisabled =>
          ⟨.error (.SubtitleExtractionError
            (("Subtitles are disabled for video ").toList ++ vid)),
            [(vid, resolveLanguages langs)]⟩
        | .videoUnavailable =>
          ⟨.error (.SubtitleExtractionError
            ((("Video ").toList ++ vid) ++ (" is unavailable").toList)),
            [(vid, resolveLanguages langs)]⟩
        | .otherError m =>
          ⟨.error (.SubtitleExtractionError
            (((("Failed to extract subtitles for ").toList ++ vid) ++
              (": ").toList) ++ m)),
            [(vid, resolveLanguages langs)]⟩ : ExtractionRun) := by
  simp only [extract_subtitles]
  rw [if_neg (by simp [h1]), h2]

/-- Claim C5: on every valid input whose fetch fails, extract_subtitles
raises SubtitleExtractionError and nothing else: the disabled and
unavailable conditions produce the exact messages naming the video id, and
any other fetcher failure is re-wrapped with the video id and the underlying
description; no fetcher exception propagates. -/
theorem claim5_fetch_failure_wrapped
    (fetch : List Char → List (List Char) → FetchOutcome) (s : List Char)
    (langs : Option (List (List Char))) (vid : List Char)
    (h1 : (pyStrip s).isEmpty = false)
    (h2 : extract_video_id_from_input (pyStrip s) = .ok vid) :
    (fetch vid (resolveLanguages langs) = .transcriptsDisabled →
      (extract_subtitles fetch (.str s) langs).result =
        .error (.SubtitleExtractionError
          (("Subtitles are disabled for video ").toList ++ vid))) ∧
    (fetch vid (resolveLanguages langs) = .videoUnavailable →
      (extract_subtitles fetch (.str s) langs).result =
        .error (.SubtitleExtractionError
          ((("Video ").toList ++ vid) ++ (" is unavailable").toList))) ∧
    (∀ m, fetch vid (resolveLanguages langs) = .otherError m →
      (extract_subtitles fetch (.str s) langs).result =
        .error (.SubtitleExtractionError
          (((("Failed to extract subtitles for ").toList ++ vid) ++
            (": ").toList) ++ m))) := by
  rw [run_of_normalized fetch langs h1 h2]
  refine ⟨fun hf => by rw [hf], fun hf => by rw [hf], fun m hf => by rw [hf]⟩

/-- Claim C6: the empty string, an all-whitespace string, and a non-string
input each make extract_subtitles fail with InvalidVideoInputError carrying
exactly the message "Video input must be a non-empty string", with no fetch
call made. -/
theorem claim6_empty_input
    (fetch : List Char → List (List Char) → FetchOutcome) (input : PyInput)
    (langs : Option (List (List Char)))
    (h : input = .nonString ∨ ∃ s, input = .str s ∧ (pyStrip s).isEmpty = true) :
    extract_subtitles fetch input langs =
      ⟨.error (.InvalidVideoInputError
        (("Video input must be a non-empty string").toList)), []⟩ := by
  rcases h with rfl | ⟨s, rfl, hs⟩
  · rfl
  · simp only [extract_subtitles]
    rw [if_pos (by simp [hs])]

/-- Claim C7: whenever the fetcher succeeds with an ordered snippet
sequence, extract_subtitles returns exactly the snippet texts joined with a
single ASCII space in the same order, and the empty string for an empty
sequence. -/
theorem claim7_join_fragments
    (fetch : List Char → List (List Char) → FetchOutcome) (s : List Char)
    (langs : Option (List (List Char))) (vid : List Char)
    (snippets : List TranscriptSnippet)
    (h1 : (pyStrip s).isEmpty = false)
    (h2 : extract_video_id_from_input (pyStrip s) = .ok vid)
    (h3 : fetch vid (resolveLanguages langs) = .success snippets) :
    (extract_subtitles fetch (.str s) langs).result =
      .ok (List.intercalate ([' ']) (snippets.map TranscriptSnippet.text)) ∧
    (snippets = [] → (extract_subtitles fetch (.str s) langs).result =
      .ok []) := by
  rw [run_of_normalized fetch langs h1 h2, h3]
  exact ⟨rfl, fun he => by rw [he]; rfl⟩

/-- Claim C8: the fetcher is invoked exactly once with the resolved language
list: the built-in default ordered list of 29 codes when the caller supplies
none or an empty list, and the caller-supplied list verbatim otherwise. -/
theorem claim8_languages
    (fetch : List Char → List (List Char) → FetchOutcome) (s : List Char)
    (langs : Option (List (List Char))) (vid : List Char)
    (h1 : (pyStrip s).isEmpty = false)
    (h2 : extract_video_id_from_input (pyStrip s) = .ok vid) :
    (extract_subtitles fetch (.str s) langs).fetchCalls =
      [(vid, resolveLanguages langs)] ∧
    resolveLanguages none =
      [("en").toList, ("fr").toList, ("es").toList, ("de").toList,
        ("ru").toList, ("zh").toList, ("it").toList, ("pt").toList,
        ("ja").toList, ("ar").toList, ("hi").toList, ("bn").toList,
        ("pa").toList, ("te").toList, ("ta").toList, ("ml").toList,
        ("mr").toList, ("gu").toList, ("kn").toList, ("or").toList,
        ("nl").toList, ("pl").toList, ("ro").toList, ("sv").toList,
        ("tr").toList, ("uk").toList, ("vi").toList, ("yo").toList,
        ("zu").toList] ∧
    (∀ l, l ≠ [] → resolveLanguages (some l) = l) ∧
    (∀ l, l = [] → resolveLanguages (some l) = DEFAULT_LANGUAGES) := by
  refine ⟨?_, rfl, fun l hl => ?_, fun l hl => ?_⟩
  · rw [run_of_normalized fetch langs h1 h2]
    cases fetch vid (resolveLanguages langs) <;> rfl
  · simp only [resolveLanguages]
    rw [if_neg (by simp [List.isEmpty_iff, hl])]
  · rw [hl]
    rfl

/-! Claims C2 and C3: the two URL shapes. -/

theorem vvi_watch_false (id : List Char) :
    validate_video_id (watchPre ++ id) = false := by
  unfold validate_video_id
  rw [pyStrip_append (by decide) (by decide) (by decide)]
  by_cases hie : ((watchPre ++ pyRstrip id).isEmpty = true)
  · rw [if_pos hie]
  · rw [if_neg hie]
    have hlen : (watchPre ++ pyRstrip id).length ≠ YOUTUBE_VIDEO_ID_LENGTH := by
      rw [List.length_append, show watchPre.length = 32 from by decide]
      unfold YOUTUBE_VIDEO_ID_LENGTH
      omega
    rw [decide_eq_false hlen, Bool.false_and]

theorem vvi_be_false (id : List Char) :
    validate_video_id (bePre ++ id) = false := by
  unfold validate_video_id
  rw [pyStrip_append (by decide) (by decide) (by decide)]
  by_cases hie : ((bePre ++ pyRstrip id).isEmpty = true)
  · rw [if_pos hie]
  · rw [if_neg hie]
    have hlen : (bePre ++ pyRstrip id).length ≠ YOUTUBE_VIDEO_ID_LENGTH := by
      rw [List.length_append, show bePre.length = 17 from by decide]
      unfold YOUTUBE_VIDEO_ID_LENGTH
      omega
    rw [decide_eq_false hlen, Bool.false_and]

theorem strip_watch_ne_nil (id : List Char) :
    pyStrip (watchPre ++ id) ≠ [] := by
  rw [pyStrip_append (by decide) (by decide) (by decide)]
  intro h0
  exact absurd (List.append_eq_nil.mp h0).1 (by decide)

theorem strip_be_ne_nil (id : List Char) :
    pyStrip (bePre ++ id) ≠ [] := by
  rw [pyStrip_append (by decide) (by decide) (by decide)]
  intro h0
  exact absurd (List.append_eq_nil.mp h0).1 (by decide)

/-- Claim C2: a URL of the form https://www.youtube.com/watch?v=id normalizes
to exactly the appended id if and only if id is the non-empty first value of
the parameter named v in the parsed query, id is exactly 11 characters, and
after removing every underscore and hyphen the remainder is a non-empty
alphanumeric string (the Python str.isalnum test the source applies). -/
theorem claim2_watch_url_iff (id : List Char) :
    extract_video_id_from_input (watchPre ++ id) = .ok id ↔
      ((urlparse (pyStrip (watchPre ++ id))).bind
          (fun p => parse_qs_first (("v").toList) p.query) = some id ∧
        id.length = 11 ∧ isalnumS (stripUD id) = true) := by
  have hp := urlparse_watch id
  constructor
  · intro h
    by_cases hval : validate_youtube_url (watchPre ++ id) = true
    · obtain ⟨p, hp2, _hdom, hcase⟩ := validate_true_elim hval
      have hpeq : p = ⟨("https").toList, ("www.youtube.com").toList,
          ("/watch").toList, [],
          'v' :: '=' :: (splitHash (removeUnsafe (pyRstrip id))).1,
          (splitHash (removeUnsafe (pyRstrip id))).2⟩ := by
        rw [hp] at hp2
        simp only [Option.some.injEq] at hp2
        rw [hp2]
      rcases hcase with ⟨hbe, _, _⟩ | ⟨hbe, hpath, v, hv, hlen, halnum⟩
      · rw [hpeq] at hbe
        exact absurd hbe (by exact (by decide :
          ¬ lowerL (("www.youtube.com").toList) = ("youtu.be").toList))
      · have hex := extract_watch hval hp2 hbe hpath hv
        unfold extract_video_id_from_input at h
        rw [if_pos hval, hex] at h
        simp only [Except.ok.injEq] at h
        subst h
        refine ⟨?_, hlen, halnum⟩
        rw [hp]
        rw [hpeq] at hv
        exact hv
    · have hvv := vvi_watch_false id
      unfold extract_video_id_from_input at h
      rw [if_neg hval, if_neg (by simp [hvv])] at h
      exact absurd h (by simp)
  · rintro ⟨hq, hlen, halnum⟩
    rw [hp] at hq
    simp only [Option.bind] at hq
    have hval : validate_youtube_url (watchPre ++ id) = true := by
      unfold validate_youtube_url
      rw [if_neg (by simp [List.isEmpty_iff, strip_watch_ne_nil id]), hp]
      simp only
      rw [if_pos (by decide), if_neg (by decide), if_pos (Or.inl trivial), hq]
      simp only
      rw [hlen, halnum]
      decide
    have hexf : extract_video_id_from_input (watchPre ++ id) =
        extract_video_id (watchPre ++ id) := by
      unfold extract_video_id_from_input
      rw [if_pos hval]
    rw [hexf]
    exact extract_watch hval hp (by exact (by decide :
      ¬ lowerL (("www.youtube.com").toList) = ("youtu.be").toList))
      (Or.inl rfl) hq

/-- Claim C3: a URL of the form https://youtu.be/id normalizes to exactly
the appended id if and only if id is exactly 11 alphanumeric characters;
underscore and hyphen are not accepted in this path form, the intentional
asymmetry with the watch?v= query form. -/
theorem claim3_youtu_be_iff (id : List Char) :
    extract_video_id_from_input (bePre ++ id) = .ok id ↔
      (id.length = 11 ∧ isalnumS id = true) := by
  constructor
  · intro h
    by_cases hval : validate_youtube_url (bePre ++ id) = true
    · obtain ⟨p, hp2, _hdom, hcase⟩ := validate_true_elim hval
      have hpn : p.netloc = ("youtu.be").toList := by
        rw [urlparse_be id] at hp2
        simp only [Option.some.injEq] at hp2
        rw [← hp2]
      rcases hcase with ⟨_hbe, hlen, halnum⟩ | ⟨hbe2, _, _⟩
      · have hex := extract_be hval hp2 (by
          rw [hpn]
          exact (by decide :
            lowerL (("youtu.be").toList) = ("youtu.be").toList))
        unfold extract_video_id_from_input at h
        rw [if_pos hval, hex] at h
        simp only [Except.ok.injEq] at h
        rw [h] at hlen halnum
        exact ⟨hlen, halnum⟩
      · refine absurd ?_ hbe2
        rw [hpn]
        exact (by decide : lowerL (("youtu.be").toList) = ("youtu.be").toList)
    · have hvv := vvi_be_false id
      unfold extract_video_id_from_input at h
      rw [if_neg hval, if_neg (by simp [hvv])] at h
      exact absurd h (by simp)
  · rintro ⟨hlen, halnum⟩
    have hall : ∀ c ∈ id, isalnumChar c = true := isalnumS_all halnum
    have hrs : pyRstrip id = id := by
      unfold pyRstrip
      rw [dropWhile_eq_self_of_all (fun a ha =>
        isalnumChar_not_space (hall a (List.mem_reverse.mp ha))),
        List.reverse_reverse]
    have hru : removeUnsafe id = id := by
      unfold removeUnsafe
      rw [List.filter_eq_self]
      intro a ha
      have t1 : a ≠ '\t' := isalnumChar_ne_of (hall a ha) (by decide)
      have t2 : a ≠ '\r' := isalnumChar_ne_of (hall a ha) (by decide)
      have t3 : a ≠ '\n' := isalnumChar_ne_of (hall a ha) (by decide)
      simp [t1, t2, t3]
    have hsh : splitHash id = (id, []) := splitHash_no_hash (fun a ha =>
      isalnumChar_ne_of (hall a ha) (by decide))
    have hsq : splitQm id = (id, []) := splitQm_no_qm (fun a ha =>
      isalnumChar_ne_of (hall a ha) (by decide))
    have hsp : splitparams ('/' :: id) = ('/' :: id, []) := by
      unfold splitparams
      rw [contains_eq_false_of_not_mem (l := '/' :: id) (a := ';') ?hnm]
      · simp
      case hnm =>
        intro hmem
        rcases List.mem_cons.mp hmem with hh | hh
        · exact absurd hh (by decide)
        · exact absurd (hall ';' hh) (by decide)
    have hpful : urlparse (pyStrip (bePre ++ id)) =
        some ⟨("https").toList, ("youtu.be").toList, '/' :: id, [], [], []⟩ := by
      rw [urlparse_be id, hrs, hru, hsh]
      simp only [hsq, hsp]
    have hdw : ('/' :: id).dropWhile (fun c => c == '/') = id := by
      rw [List.dropWhile_cons_of_pos (by simp)]
      exact dropWhile_eq_self_of_all (fun a ha => by
        have hne2 := isalnumChar_ne_of (hall a ha)
          (show isalnumChar '/' = false by decide)
        simp [hne2])
    have hval : validate_youtube_url (bePre ++ id) = true := by
      unfold validate_youtube_url
      rw [if_neg (by simp [List.isEmpty_iff, strip_be_ne_nil id]), hpful]
      simp only
      rw [if_pos (by decide), if_pos (by decide)]
      rw [hdw, hlen, halnum]
      decide
    have hex := extract_be hval hpful (by exact (by decide :
      lowerL (("youtu.be").toList) = ("youtu.be").toList))
    unfold extract_video_id_from_input
    rw [if_pos hval, hex, hdw]

/-! Witnesses: each hypothesis-bearing claim theorem applied at a concrete
input. -/

theorem claim1_amended_witness :
    (("dQw4w9WgXcQ").toList).length = 11 ∧
    (∀ c ∈ ("dQw4w9WgXcQ").toList,
      isalnumChar c = true ∨ c = '_' ∨ c = '-') ∧
    (∃ c ∈ ("dQw4w9WgXcQ").toList, isalnumChar c = true) ∧
    (validate_video_id (("dQw4w9WgXcQ").toList) = true ∧
      extract_video_id_from_input (("dQw4w9WgXcQ").toList) =
        .ok (("dQw4w9WgXcQ").toList)) :=
  ⟨by decide, by decide, by decide,
    claim1_amended_direct_id (("dQw4w9WgXcQ").toList)
      (by decide) (by decide) (by decide)⟩

theorem claim4_witness :
    ((("dQw4w9WgXcQ").toList, DEFAULT_LANGUAGES) ∈
      (extract_subtitles (fun _ _ => FetchOutcome.transcriptsDisabled)
        (.str (("dQw4w9WgXcQ").toList)) none).fetchCalls) ∧
    ((("dQw4w9WgXcQ").toList, DEFAULT_LANGUAGES).1.length = 11 ∧
      (∀ c ∈ (("dQw4w9WgXcQ").toList, DEFAULT_LANGUAGES).1,
        isalnumChar c = true ∨ c = '_' ∨ c = '-') ∧
      ∀ m, (extract_subtitles (fun _ _ => FetchOutcome.transcriptsDisabled)
        (.str (("dQw4w9WgXcQ").toList)) none).result ≠
          .error (.InvalidVideoInputError m)) :=
  ⟨by decide,
    claim4_fetch_only_validated (fun _ _ => FetchOutcome.transcriptsDisabled)
      (.str (("dQw4w9WgXcQ").toList)) none
      ((("dQw4w9WgXcQ").toList, DEFAULT_LANGUAGES)) (by decide)⟩

theorem claim5_witness :
    (pyStrip (("dQw4w9WgXcQ").toList)).isEmpty = false ∧
    extract_video_id_from_input (pyStrip (("dQw4w9WgXcQ").toList)) =
      .ok (("dQw4w9WgXcQ").toList) ∧
    (extract_subtitles (fun _ _ => FetchOutcome.transcriptsDisabled)
      (.str (("dQw4w9WgXcQ").toList)) none).result =
      .error (.SubtitleExtractionError
        (("Subtitles are disabled for video ").toList ++
          ("dQw4w9WgXcQ").toList)) :=
  ⟨by decide, by decide,
    (claim5_fetch_failure_wrapped
      (fun _ _ => FetchOutcome.transcriptsDisabled) (("dQw4w9WgXcQ").toList)
      none (("dQw4w9WgXcQ").toList) (by decide) (by decide)).1 rfl⟩

theorem claim6_witness :
    ((PyInput.str (("   ").toList)) = PyInput.nonString ∨
      ∃ s, (PyInput.str (("   ").toList)) = PyInput.str s ∧
        (pyStrip s).isEmpty = true) ∧
    extract_subtitles (fun _ _ => FetchOutcome.transcriptsDisabled)
      (.str (("   ").toList)) none =
      ⟨.error (.InvalidVideoInputError
        (("Video input must be a non-empty string").toList)), []⟩ :=
  ⟨Or.inr ⟨("   ").toList, rfl, by decide⟩,
    claim6_empty_input (fun _ _ => FetchOutcome.transcriptsDisabled)
      (.str (("   ").toList)) none
      (Or.inr ⟨("   ").toList, rfl, by decide⟩)⟩

theorem claim7_witness :
    (pyStrip (("dQw4w9WgXcQ").toList)).isEmpty = false ∧
    extract_video_id_from_input (pyStrip (("dQw4w9WgXcQ").toList)) =
      .ok (("dQw4w9WgXcQ").toList) ∧
    (extract_subtitles
      (fun _ _ => FetchOutcome.success
        [⟨("Hello world").toList⟩, ⟨("This is a test").toList⟩,
          ⟨("YouTube transcript").toList⟩])
      (.str (("dQw4w9WgXcQ").toList)) none).result =
      .ok (("Hello world This is a test YouTube transcript").toList) :=
  ⟨by decide, by decide,
    ((claim7_join_fragments
      (fun _ _ => FetchOutcome.success
        [⟨("Hello world").toList⟩, ⟨("This is a test").toList⟩,
          ⟨("YouTube transcript").toList⟩])
      (("dQw4w9WgXcQ").toList) none (("dQw4w9WgXcQ").toList)
      [⟨("Hello world").toList⟩, ⟨("This is a test").toList⟩,
        ⟨("YouTube transcript").toList⟩]
      (by decide) (by decide) rfl).1).trans (by decide)⟩

theorem claim8_witness :
    (pyStrip (("dQw4w9WgXcQ").toList)).isEmpty = false ∧
    extract_video_id_from_input (pyStrip (("dQw4w9WgXcQ").toList)) =
      .ok (("dQw4w9WgXcQ").toList) ∧
    (extract_subtitles (fun _ _ => FetchOutcome.transcriptsDisabled)
      (.str (("dQw4w9WgXcQ").toList)) none).fetchCalls =
      [((("dQw4w9WgXcQ").toList), DEFAULT_LANGUAGES)] :=
  ⟨by decide, by decide,
    ((claim8_languages (fun _ _ => FetchOutcome.transcriptsDisabled)
      (("dQw4w9WgXcQ").toList) none (("dQw4w9WgXcQ").toList)
      (by decide) (by decide)).1).trans rfl⟩

theorem claim9_witness :
    urlparse (pyStrip (("https://vimeo.com/123456789").toList)) =
      some ⟨("https").toList, ("vimeo.com").toList, ("/123456789").toList,
        [], [], []⟩ ∧
    (ParsedUrl.netloc ⟨("https").toList, ("vimeo.com").toList,
      ("/123456789").toList, [], [], []⟩) ≠ [] ∧
    lowerL (ParsedUrl.netloc ⟨("https").toList, ("vimeo.com").toList,
      ("/123456789").toList, [], [], []⟩) ∉ VALID_YOUTUBE_DOMAINS ∧
    extract_video_id_from_input (("https://vimeo.com/123456789").toList) =
      .error (.InvalidVideoInputError
        ((("Invalid video input: ").toList ++
          ("https://vimeo.com/123456789").toList) ++
          (". Must be a valid YouTube URL or 11-character video ID").toList))
    :=
  ⟨by decide, by decide, by decide,
    claim9_unrecognized_host (("https://vimeo.com/123456789").toList)
      ⟨("https").toList, ("vimeo.com").toList, ("/123456789").toList,
        [], [], []⟩ (by decide) (by decide) (by decide)⟩

theorem claim10_witness :
    validate_youtube_url (("https://youtu.be/dQw4w9WgXcQ").toList) = true ∧
    ∃ v, extract_video_id (("https://youtu.be/dQw4w9WgXcQ").toList) =
      .ok v :=
  ⟨by decide,
    claim10_validate_implies_extract_ok
      (("https://youtu.be/dQw4w9WgXcQ").toList) (by decide)⟩

end Subtitler
